import Mathlib

/-!
Shallow embedding of the download engine of `ictfd.py` (repository
IgorCielniak/ictfd): the function `download_http_file` together with the
helpers `format_bytes` / `format_time` it uses.

Modelling choices (all effects made explicit):

* The file system is reduced to the single destination path that one call of
  `download_http_file` ever touches; its content is an `Option (List Nat)`
  (`none` = the path does not exist, `some bytes` = it exists with those bytes).
* The HTTP transport is an oracle `net : Nat → AttemptNet` giving, for each
  attempt index, how `requests.get` / `raise_for_status` / `iter_content`
  behave on that attempt: raising `requests.exceptions.RequestException`,
  returning a bad-status (falsy) response so that `raise_for_status` raises,
  being hit by `KeyboardInterrupt` during the request, or yielding a streamed
  response with headers and a list of stream events.
* Wall-clock time is an oracle as well: every received chunk carries the value
  of `(datetime.now() - start_time).total_seconds()` observed right after the
  chunk was written, as a rational number.  Python floats are modelled by `ℚ`;
  all divisions appearing in the source are exact in binary floating point on
  the inputs the proofs evaluate, and a division by zero is a raised
  `ZeroDivisionError`, never a `ℚ` junk value.
* `print` calls are recorded as tagged `Msg` values in a log.  Python
  exceptions that escape `download_http_file` (the `ZeroDivisionError` of the
  unguarded divisions in the progress computation, the `UnboundLocalError` on
  `start_time` after an empty attempt loop, and a `KeyboardInterrupt` raised
  while `time.sleep(5)` runs inside the `except RequestException` handler,
  where the sibling `except KeyboardInterrupt` clause does not apply) are the
  `RunResult.error` outcomes.
* The `content-type` header is assumed present (the source indexes it
  unconditionally); its value is irrelevant to every property proved here.
-/

/- Batteries marks the `Rat` arithmetic operations `@[irreducible]`, which
blocks only the elaborator's reduction, not the kernel's; concrete evaluation
of the embedded code on rationals needs them unfolded. -/
attribute [local semireducible] Rat.inv Rat.mul Rat.add Rat.sub Rat.ofScientific

namespace Ictfd

/-- Python `str.split(sep)` for a one-character separator, on the character
list of the string: `"a/b/".split("/") = ["a", "b", ""]`. -/
def splitChar (sep : Char) : List Char → List (List Char)
  | [] => [[]]
  | c :: rest =>
    match splitChar sep rest with
    | [] => [[]]
    | seg :: segs => if c = sep then [] :: seg :: segs else (c :: seg) :: segs

/-- `os.path.join(dir, s)` for a relative final component: appends a separator
unless `dir` already ends with one.  In particular
`os.path.join(dir, "") = dir ++ "/"`. -/
def ospathJoin (dir s : String) : String :=
  if dir.data.getLastD ' ' = '/' then dir ++ s else dir ++ "/" ++ s

/-- Line 23 of the source:
`file_name = os.path.join(download_dir, url.split("/")[-1])`. -/
def fileNameOf (downloadDir url : String) : String :=
  ospathJoin downloadDir (String.mk ((splitChar '/' url.data).getLastD []))

/-- Python `str.lower()` restricted to ASCII letters (`input(...).lower()` at
line 30; the answers of interest are ASCII). -/
def charLower (c : Char) : Char :=
  if 'A' ≤ c ∧ c ≤ 'Z' then Char.ofNat (c.toNat + 32) else c

/-- `s.lower()` as a character-list map (core `String.toLower` is defined by
well-founded recursion and does not reduce). -/
def pyLower (s : String) : String :=
  String.mk (s.data.map charLower)

/-- Round a rational to the nearest integer, ties to even — the rounding of
Python's `format(x, '.2f')` on exactly representable values. -/
def roundHalfEven (q : ℚ) : ℤ :=
  let f : ℤ := q.floor
  let r : ℚ := q - (f : ℚ)
  if r < 1/2 then f
  else if 1/2 < r then f + 1
  else if f % 2 = 0 then f else f + 1

/-- Zero-padded two-digit rendering of a remainder in `[0, 100)`. -/
def twoDigits (n : ℤ) : String :=
  if n < 10 then "0" ++ toString n else toString n

/-- Python `f"{q:.2f}"` for a nonnegative rational. -/
def formatFix2 (q : ℚ) : String :=
  let c : ℤ := roundHalfEven (q * 100)
  toString (c / 100) ++ "." ++ twoDigits (c % 100)

/-- The unit loop of `format_bytes` (lines 87–91 of the source): try each unit
in order, returning as soon as the remaining value is below 1024, dividing by
1024 otherwise.  Falling off the end of the unit list is Python's implicit
`return None`. -/
def format_bytes_go : ℚ → List String → Option String
  | _, [] => none
  | size, u :: rest =>
    if size < 1024 then some (formatFix2 size ++ " " ++ u)
    else format_bytes_go (size / 1024) rest

/-- `format_bytes` of the source: `["B", "KB", "MB", "GB", "TB"]`. -/
def format_bytes (size : ℚ) : Option String :=
  format_bytes_go size ["B", "KB", "MB", "GB", "TB"]

/-- `format_time` of the source (lines 93–96): `divmod` by 60 twice and
zero-pad each part to two digits (hours unbounded). -/
def format_time (seconds : ℕ) : String :=
  let minutes := seconds / 60
  let secs := seconds % 60
  let hours := minutes / 60
  let mins := minutes % 60
  twoDigits hours ++ ":" ++ twoDigits mins ++ ":" ++ twoDigits secs

/-- A Python exception escaping `download_http_file` uncaught. -/
inductive PyErr
  /-- `ZeroDivisionError` from line 59 (`downloaded_size / elapsed_time` with
  `elapsed_time = 0`) or line 60 (`downloaded_size / total_size` with
  `total_size = 0`); neither `except` clause catches it. -/
  | zeroDivision
  /-- `UnboundLocalError` raised at line 84 reading `start_time` when the
  attempt loop body never ran. -/
  | unboundLocalStartTime
  /-- A `KeyboardInterrupt` raised while `time.sleep(5)` runs at line 72:
  it is raised inside the `except RequestException` handler, so the sibling
  `except KeyboardInterrupt` clause of the same `try` does not catch it. -/
  | keyboardInterrupt
  deriving DecidableEq

/-- The way one call of `download_http_file` terminates. -/
inductive RunResult
  /-- Fell through to lines 83–84 with `start_time` bound: printed the
  success and total-time lines and returned `None`. -/
  | ok
  /-- Returned at line 33 after the overwrite prompt was answered with
  anything but `y`. -/
  | canceledByUser
  /-- Returned at line 81 from the `except KeyboardInterrupt` handler;
  the flag records whether line 79 actually removed the file. -/
  | canceledInterrupt (fileDeleted : Bool)
  /-- Returned at line 75 after the last attempt raised `RequestException`. -/
  | maxRetriesFailed
  /-- An exception escaped the function. -/
  | error (e : PyErr)
  deriving DecidableEq

/-- The values interpolated into the progress line printed at lines 63–65
after each nonempty chunk. -/
structure ProgressLine where
  bytesDownloaded : Nat
  speed : ℚ
  percentage : ℚ
  eta : ℚ
  deriving DecidableEq

/-- One `print` of `download_http_file`, tagged by source line. -/
inductive Msg
  | urlLine
  | connectedLine
  | httpLine
  /-- Line 43 interpolates `format_bytes(total_size)` (Python renders the
  `None` overflow result as the text `None`). -/
  | lengthLine (formatted : Option String)
  | savingLine
  | chunkSizeLine
  | ctrlcLine
  | progress (p : ProgressLine)
  | attemptErrorLine (attempt : Nat)
  | retryingLine
  | maxRetriesLine
  | canceledByUserLine
  | deletingLine
  | deletedLine
  | successLine
  | totalTimeLine
  deriving DecidableEq

/-- One event of `response.iter_content(chunk_size=...)` as observed by the
streaming loop of lines 53–65: a chunk delivered (with the elapsed seconds the
clock shows right after it is written), a `RequestException` raised
mid-stream, or a `KeyboardInterrupt` arriving at this point. -/
inductive StreamEvent
  | chunk (data : List Nat) (elapsed : ℚ)
  | exc
  | interrupt
  deriving DecidableEq

/-- A successful `requests.get` response: `int(headers.get('content-length', 0))`
(so `0` when the server omits the header), the `content-type` header, and the
stream of body events. -/
structure Response where
  contentLength : Nat
  contentType : String
  events : List StreamEvent
  deriving DecidableEq

/-- How one attempt's `requests.get` / `raise_for_status` behaves. -/
inductive AttemptNet
  /-- `requests.get` itself raises `RequestException` (the local `response`
  keeps its previous value). -/
  | getRaises
  /-- `requests.get` returns a response with status ≥ 400 — a falsy
  `Response` object — and `raise_for_status` raises. -/
  | badStatus
  /-- `KeyboardInterrupt` during `requests.get` (the local `response` keeps
  its previous value). -/
  | getInterrupt
  /-- Connection succeeds and `raise_for_status` passes (a truthy response). -/
  | conn (resp : Response)
  deriving DecidableEq

/-- How the streaming loop of one attempt ended. -/
inductive StreamOutcome
  /-- `iter_content` exhausted without error: the `break` at line 66 runs. -/
  | completed
  /-- `RequestException` raised mid-stream: control goes to line 67. -/
  | excStream
  /-- `KeyboardInterrupt` mid-stream: control goes to line 76. -/
  | interruptStream
  /-- `ZeroDivisionError` at line 59 or 60: it escapes the function. -/
  | zeroDiv
  deriving DecidableEq

/-- Result of the streaming loop: file content written, final
`downloaded_size`, progress lines printed, and how the loop ended. -/
structure StreamRes where
  content : List Nat
  downloaded : Nat
  progress : List ProgressLine
  outcome : StreamOutcome
  deriving DecidableEq

/-- Lines 53–65 of the source: iterate over the body's chunks; skip empty
chunks (`if chunk:`); otherwise write the chunk, add its length to
`downloaded_size`, and recompute the progress values:

* `download_speed = downloaded_size / elapsed_time` — unguarded: raises
  `ZeroDivisionError` when `elapsed_time` is `0`;
* `percentage = (downloaded_size / total_size) * 100` — unguarded: raises
  `ZeroDivisionError` when `total_size` is `0` (`content-length` missing);
* `estimated_time = (total_size - downloaded_size) / download_speed if
  download_speed > 0 else 0` — this one is guarded.

The file was opened with mode `"wb"`, so the loop starts from content `[]`;
on any exception the `with` block closes the file keeping what was written. -/
def streamLoop (total : Nat) : List StreamEvent → List Nat → Nat → StreamRes
  | [], content, downloaded => ⟨content, downloaded, [], .completed⟩
  | .chunk data elapsed :: rest, content, downloaded =>
    if data = [] then streamLoop total rest content downloaded
    else
      let content' := content ++ data
      let downloaded' := downloaded + data.length
      if elapsed = 0 then ⟨content', downloaded', [], .zeroDiv⟩
      else
        let speed := (downloaded' : ℚ) / elapsed
        if total = 0 then ⟨content', downloaded', [], .zeroDiv⟩
        else
          let percentage := ((downloaded' : ℚ) / (total : ℚ)) * 100
          let eta := if 0 < speed then ((total : ℚ) - (downloaded' : ℚ)) / speed else 0
          let r := streamLoop total rest content' downloaded'
          ⟨r.content, r.downloaded, ⟨downloaded', speed, percentage, eta⟩ :: r.progress, r.outcome⟩
  | .exc :: _, content, downloaded => ⟨content, downloaded, [], .excStream⟩
  | .interrupt :: _, content, downloaded => ⟨content, downloaded, [], .interruptStream⟩

/-- The parameters of `download_http_file` (line 21) together with the answer
the user would give to the overwrite prompt of line 30 (before `.lower()`). -/
structure Cfg where
  url : String
  downloadDir : String
  chunkSize : Nat
  timeout : ℚ
  retries : ℤ
  userAnswer : String

/-- The mutable context of one `download_http_file` call: the destination
file (`none` = absent), the truthiness of the local `response` (a `requests`
response is truthy exactly when its status is < 400, so it is `false` both
initially (`None`) and after a `badStatus` assignment), the `failed_attempt`
flag, whether `start_time` has been assigned, and the observable effects:
HTTP requests started, `time.sleep` calls performed, lines printed. -/
structure St where
  fs : Option (List Nat)
  responseTruthy : Bool
  failedAttempt : Bool
  startTimeSet : Bool
  networkAttempts : Nat
  sleeps : List Nat
  log : List Msg
  deriving DecidableEq

/-- Lines 83–84, reached by `break` or by the loop running zero times:
print the success line, then read `start_time` — an `UnboundLocalError`
if no attempt ever assigned it. -/
def epilogue (st : St) : St × RunResult :=
  let st1 : St := { st with log := st.log ++ [Msg.successLine] }
  if st.startTimeSet then ({ st1 with log := st1.log ++ [Msg.totalTimeLine] }, .ok)
  else (st1, .error .unboundLocalStartTime)

/-- Lines 76–81, the `except KeyboardInterrupt` handler: delete the file only
when `response` is truthy *and* the path exists; print the deleted message
unconditionally; return. -/
def interruptHandler (st : St) : St × RunResult :=
  let st1 : St := { st with log := st.log ++ [Msg.deletingLine] }
  let del := st1.responseTruthy && st1.fs.isSome
  (({ st1 with fs := if del then none else st1.fs,
               log := st1.log ++ [Msg.deletedLine] }), .canceledInterrupt del)

/-- The body of one iteration of `for attempt in range(retries)` (lines
27–81).  `attempt` is the Python loop index, `r` the number of iterations
still to come after this one (so `attempt < retries - 1` iff `0 < r`), and
`k` the continuation running the remaining iterations. -/
def runBody (cfg : Cfg) (net : Nat → AttemptNet) (sleepInt : Nat → Bool)
    (attempt r : Nat) (k : St → St × RunResult) (st : St) : St × RunResult :=
  if st.fs.isSome = true ∧ st.failedAttempt = false ∧ pyLower cfg.userAnswer ≠ "y" then
    ({ st with log := st.log ++ [Msg.canceledByUserLine] }, .canceledByUser)
  else
    let handleFail : St → St × RunResult := fun stf =>
      let st1 : St := { stf with failedAttempt := true,
                                 log := stf.log ++ [Msg.attemptErrorLine (attempt + 1)] }
      if 0 < r then
        let st2 : St := { st1 with log := st1.log ++ [Msg.retryingLine] }
        if sleepInt attempt = true then (st2, .error .keyboardInterrupt)
        else k { st2 with sleeps := st2.sleeps ++ [5] }
      else ({ st1 with log := st1.log ++ [Msg.maxRetriesLine] }, .maxRetriesFailed)
    match net attempt with
    | .getInterrupt => interruptHandler { st with networkAttempts := st.networkAttempts + 1 }
    | .getRaises => handleFail { st with networkAttempts := st.networkAttempts + 1 }
    | .badStatus => handleFail { st with networkAttempts := st.networkAttempts + 1,
                                         responseTruthy := false }
    | .conn resp =>
      let total := resp.contentLength
      let st1 : St := { st with networkAttempts := st.networkAttempts + 1,
                                responseTruthy := true,
                                startTimeSet := true,
                                log := st.log ++ [Msg.urlLine, Msg.connectedLine, Msg.httpLine,
                                                  Msg.lengthLine (format_bytes (total : ℚ)),
                                                  Msg.savingLine, Msg.chunkSizeLine,
                                                  Msg.ctrlcLine] }
      let sres := streamLoop total resp.events [] 0
      let st2 : St := { st1 with fs := some sres.content,
                                 log := st1.log ++ sres.progress.map Msg.progress }
      match sres.outcome with
      | .completed => epilogue st2
      | .zeroDiv => (st2, .error .zeroDivision)
      | .interruptStream => interruptHandler st2
      | .excStream => handleFail st2

/-- The attempt loop `for attempt in range(retries)` (line 26), by the number
of iterations remaining. -/
def runLoop (cfg : Cfg) (net : Nat → AttemptNet) (sleepInt : Nat → Bool) :
    Nat → Nat → St → St × RunResult
  | 0, _, st => epilogue st
  | r + 1, attempt, st =>
    runBody cfg net sleepInt attempt r (runLoop cfg net sleepInt r (attempt + 1)) st

/-- `download_http_file(url, download_dir, chunk_size, timeout, retries)`
(lines 21–84), with the transport, clock, interrupt and initial-file-system
oracles explicit.  `range(retries)` of a Python `int` iterates
`max(retries, 0)` times, which is `Int.toNat`. -/
def download_http_file (cfg : Cfg) (net : Nat → AttemptNet) (sleepInt : Nat → Bool)
    (initialFs : Option (List Nat)) : St × RunResult :=
  runLoop cfg net sleepInt cfg.retries.toNat 0
    { fs := initialFs, responseTruthy := false, failedAttempt := false,
      startTimeSet := false, networkAttempts := 0, sleeps := [], log := [] }

/-- The data of the nonempty chunks among a list of stream events, in order
(the bytes the streaming loop would write while consuming those events). -/
def chunkDatas : List StreamEvent → List (List Nat)
  | [] => []
  | .chunk data _ :: rest => if data = [] then chunkDatas rest else data :: chunkDatas rest
  | .exc :: rest => chunkDatas rest
  | .interrupt :: rest => chunkDatas rest

theorem streamLoop_bytes (total : Nat) :
    ∀ (events : List StreamEvent) (c : List Nat) (d : Nat),
      (∀ b ∈ ((streamLoop total events c d).progress.map fun p => p.bytesDownloaded), d ≤ b) ∧
      List.Chain' (· ≤ ·)
        ((streamLoop total events c d).progress.map fun p => p.bytesDownloaded) := by
  intro events
  induction events with
  | nil => intro c d; simp [streamLoop]
  | cons e rest ih =>
    intro c d
    cases e with
    | chunk data elapsed =>
      by_cases hd : data = []
      · simpa [streamLoop, hd] using ih c d
      · by_cases he : elapsed = 0
        · simp [streamLoop, hd, he]
        · by_cases ht : total = 0
          · simp [streamLoop, hd, he, ht]
          · have h2 := ih (c ++ data) (d + data.length)
            simp only [streamLoop, if_neg hd, if_neg he, if_neg ht, List.map_cons]
            constructor
            · intro b hb
              rcases List.mem_cons.mp hb with hb | hb
              · exact hb ▸ Nat.le_add_right d data.length
              · exact le_trans (Nat.le_add_right d data.length) (h2.1 b hb)
            · refine List.chain'_cons'.mpr ⟨fun y hy => h2.1 y (List.mem_of_mem_head? hy), h2.2⟩
    | exc => simp [streamLoop]
    | interrupt => simp [streamLoop]

theorem streamLoop_content (total : Nat) :
    ∀ (events : List StreamEvent) (c : List Nat) (d : Nat),
      ∃ m, (streamLoop total events c d).content =
        c ++ (chunkDatas (List.take m events)).flatten := by
  intro events
  induction events with
  | nil => intro c d; exact ⟨0, by simp [streamLoop, chunkDatas]⟩
  | cons e rest ih =>
    intro c d
    cases e with
    | chunk data elapsed =>
      by_cases hd : data = []
      · obtain ⟨m, hm⟩ := ih c d
        exact ⟨m + 1, by simpa [streamLoop, chunkDatas, hd] using hm⟩
      · by_cases he : elapsed = 0
        · exact ⟨1, by simp [streamLoop, chunkDatas, hd, he]⟩
        · by_cases ht : total = 0
          · exact ⟨1, by simp [streamLoop, chunkDatas, hd, he, ht]⟩
          · obtain ⟨m, hm⟩ := ih (c ++ data) (d + data.length)
            refine ⟨m + 1, ?_⟩
            simp only [streamLoop, if_neg hd, if_neg he, if_neg ht, List.take_succ_cons,
              chunkDatas, List.flatten]
            simpa [List.append_assoc] using hm
    | exc => exact ⟨0, by simp [streamLoop, chunkDatas]⟩
    | interrupt => exact ⟨0, by simp [streamLoop, chunkDatas]⟩

@[simp] theorem epilogue_fst_fs (st : St) : (epilogue st).1.fs = st.fs := by
  unfold epilogue; split <;> rfl

@[simp] theorem epilogue_fst_na (st : St) :
    (epilogue st).1.networkAttempts = st.networkAttempts := by
  unfold epilogue; split <;> rfl

@[simp] theorem epilogue_snd_ne_cancel (st : St) (b : Bool) :
    (epilogue st).2 ≠ .canceledInterrupt b := by
  unfold epilogue; split <;> simp

@[simp] theorem epilogue_snd_ne_kbd (st : St) :
    (epilogue st).2 ≠ .error .keyboardInterrupt := by
  unfold epilogue; split <;> simp

@[simp] theorem epilogue_snd_ne_maxR (st : St) :
    (epilogue st).2 ≠ .maxRetriesFailed := by
  unfold epilogue; split <;> simp

@[simp] theorem interruptHandler_fst_na (st : St) :
    (interruptHandler st).1.networkAttempts = st.networkAttempts := rfl

@[simp] theorem interruptHandler_snd (st : St) :
    (interruptHandler st).2 = .canceledInterrupt (st.responseTruthy && st.fs.isSome) := rfl

@[simp] theorem interruptHandler_fst_fs (st : St) :
    (interruptHandler st).1.fs =
      if st.responseTruthy && st.fs.isSome then none else st.fs := rfl

theorem runLoop_na_mono (cfg : Cfg) (net : Nat → AttemptNet) (sI : Nat → Bool) :
    ∀ (r a : Nat) (st : St),
      st.networkAttempts ≤ (runLoop cfg net sI r a st).1.networkAttempts := by
  intro r
  induction r with
  | zero => intro a st; simp [runLoop]
  | succ n ih =>
    intro a st
    rw [runLoop]
    unfold runBody
    by_cases hp : (st.fs.isSome = true ∧ st.failedAttempt = false ∧
        pyLower cfg.userAnswer ≠ "y")
    · rw [if_pos hp]
    · rw [if_neg hp]
      cases hn : net a with
      | getInterrupt => simp
      | getRaises =>
        split
        · split
          · simp
          · exact le_trans (by simp) (ih (a + 1) _)
        · simp
      | badStatus =>
        split
        · split
          · simp
          · exact le_trans (by simp) (ih (a + 1) _)
        · simp
      | conn resp =>
        cases ho : (streamLoop resp.contentLength resp.events [] 0).outcome with
        | completed => simp [ho]
        | zeroDiv => simp [ho]
        | interruptStream => simp [ho]
        | excStream =>
          simp only [ho]
          split
          · split
            · simp
            · exact le_trans (by simp) (ih (a + 1) _)
          · simp

theorem runLoop_cancelTrue_fs (cfg : Cfg) (net : Nat → AttemptNet) (sI : Nat → Bool) :
    ∀ (r a : Nat) (st : St),
      (runLoop cfg net sI r a st).2 = .canceledInterrupt true →
      (runLoop cfg net sI r a st).1.fs = none := by
  intro r
  induction r with
  | zero => intro a st h; rw [runLoop] at h; exact absurd h (epilogue_snd_ne_cancel _ _)
  | succ n ih =>
    intro a st h
    rw [runLoop] at h ⊢
    unfold runBody at h ⊢
    by_cases hp : (st.fs.isSome = true ∧ st.failedAttempt = false ∧
        pyLower cfg.userAnswer ≠ "y")
    · rw [if_pos hp] at h; simp at h
    · rw [if_neg hp] at h ⊢
      cases hn : net a with
      | getInterrupt =>
        simp only [hn] at h ⊢
        simp only [interruptHandler_snd, RunResult.canceledInterrupt.injEq] at h
        simp [h]
      | getRaises =>
        simp only [hn] at h ⊢
        by_cases hr0 : 0 < n
        · rw [if_pos hr0] at h ⊢
          by_cases hs : sI a = true
          · rw [if_pos hs] at h; simp at h
          · rw [if_neg hs] at h ⊢; exact ih (a + 1) _ h
        · rw [if_neg hr0] at h; simp at h
      | badStatus =>
        simp only [hn] at h ⊢
        by_cases hr0 : 0 < n
        · rw [if_pos hr0] at h ⊢
          by_cases hs : sI a = true
          · rw [if_pos hs] at h; simp at h
          · rw [if_neg hs] at h ⊢; exact ih (a + 1) _ h
        · rw [if_neg hr0] at h; simp at h
      | conn resp =>
        cases ho : (streamLoop resp.contentLength resp.events [] 0).outcome with
        | completed => simp only [hn, ho] at h; simp at h
        | zeroDiv => simp only [hn, ho] at h; simp at h
        | interruptStream => simp only [hn, ho] at h ⊢; simp
        | excStream =>
          simp only [hn, ho] at h ⊢
          by_cases hr0 : 0 < n
          · rw [if_pos hr0] at h ⊢
            by_cases hs : sI a = true
            · rw [if_pos hs] at h; simp at h
            · rw [if_neg hs] at h ⊢; exact ih (a + 1) _ h
          · rw [if_neg hr0] at h; simp at h

theorem runLoop_kbd_fs (cfg : Cfg) (net : Nat → AttemptNet) (sI : Nat → Bool) :
    ∀ (r a : Nat) (st : St), st.fs.isSome = true →
      (runLoop cfg net sI r a st).2 = .error .keyboardInterrupt →
      (runLoop cfg net sI r a st).1.fs.isSome = true := by
  intro r
  induction r with
  | zero => intro a st h1 h2; rw [runLoop] at h2; exact absurd h2 (epilogue_snd_ne_kbd _)
  | succ n ih =>
    intro a st h1 h2
    rw [runLoop] at h2 ⊢
    unfold runBody at h2 ⊢
    by_cases hp : (st.fs.isSome = true ∧ st.failedAttempt = false ∧
        pyLower cfg.userAnswer ≠ "y")
    · rw [if_pos hp] at h2; simp at h2
    · rw [if_neg hp] at h2 ⊢
      cases hn : net a with
      | getInterrupt => simp only [hn] at h2; simp at h2
      | getRaises =>
        simp only [hn] at h2 ⊢
        by_cases hr0 : 0 < n
        · rw [if_pos hr0] at h2 ⊢
          by_cases hs : sI a = true
          · rw [if_pos hs]; simpa using h1
          · rw [if_neg hs] at h2 ⊢; exact ih (a + 1) _ (by simpa using h1) h2
        · rw [if_neg hr0] at h2; simp at h2
      | badStatus =>
        simp only [hn] at h2 ⊢
        by_cases hr0 : 0 < n
        · rw [if_pos hr0] at h2 ⊢
          by_cases hs : sI a = true
          · rw [if_pos hs]; simpa using h1
          · rw [if_neg hs] at h2 ⊢; exact ih (a + 1) _ (by simpa using h1) h2
        · rw [if_neg hr0] at h2; simp at h2
      | conn resp =>
        cases ho : (streamLoop resp.contentLength resp.events [] 0).outcome with
        | completed => simp only [hn, ho] at h2; simp at h2
        | zeroDiv => simp only [hn, ho] at h2; simp at h2
        | interruptStream => simp only [hn, ho] at h2; simp at h2
        | excStream =>
          simp only [hn, ho] at h2 ⊢
          by_cases hr0 : 0 < n
          · rw [if_pos hr0] at h2 ⊢
            by_cases hs : sI a = true
            · rw [if_pos hs]; simp
            · rw [if_neg hs] at h2 ⊢; exact ih (a + 1) _ (by simp) h2
          · rw [if_neg hr0] at h2; simp at h2

theorem runLoop_fs_none (cfg : Cfg) (net : Nat → AttemptNet) (sI : Nat → Bool) :
    ∀ (r a : Nat) (st : St),
      (runLoop cfg net sI r a st).1.fs = none →
      (runLoop cfg net sI r a st).2 = .canceledInterrupt true ∨ st.fs = none := by
  intro r
  induction r with
  | zero => intro a st h; rw [runLoop] at h ⊢; right; simpa using h
  | succ n ih =>
    intro a st h
    rw [runLoop] at h ⊢
    unfold runBody at h ⊢
    by_cases hp : (st.fs.isSome = true ∧ st.failedAttempt = false ∧
        pyLower cfg.userAnswer ≠ "y")
    · rw [if_pos hp] at h; right; simpa using h
    · rw [if_neg hp] at h ⊢
      cases hn : net a with
      | getInterrupt =>
        simp only [hn] at h ⊢
        simp only [interruptHandler_fst_fs] at h
        by_cases hb : (st.responseTruthy && st.fs.isSome) = true
        · left; simp [hb]
        · rw [if_neg hb] at h; right; simpa using h
      | getRaises =>
        simp only [hn] at h ⊢
        by_cases hr0 : 0 < n
        · rw [if_pos hr0] at h ⊢
          by_cases hs : sI a = true
          · rw [if_pos hs] at h; right; simpa using h
          · rw [if_neg hs] at h ⊢
            rcases ih (a + 1) _ h with hc | hfs
            · exact Or.inl hc
            · right; simpa using hfs
        · rw [if_neg hr0] at h; right; simpa using h
      | badStatus =>
        simp only [hn] at h ⊢
        by_cases hr0 : 0 < n
        · rw [if_pos hr0] at h ⊢
          by_cases hs : sI a = true
          · rw [if_pos hs] at h; right; simpa using h
          · rw [if_neg hs] at h ⊢
            rcases ih (a + 1) _ h with hc | hfs
            · exact Or.inl hc
            · right; simpa using hfs
        · rw [if_neg hr0] at h; right; simpa using h
      | conn resp =>
        cases ho : (streamLoop resp.contentLength resp.events [] 0).outcome with
        | completed => simp only [hn, ho] at h; simp at h
        | zeroDiv => simp only [hn, ho] at h; simp at h
        | interruptStream => simp only [hn, ho] at h ⊢; left; simp
        | excStream =>
          simp only [hn, ho] at h ⊢
          by_cases hr0 : 0 < n
          · rw [if_pos hr0] at h ⊢
            by_cases hs : sI a = true
            · rw [if_pos hs] at h; simp at h
            · rw [if_neg hs] at h ⊢
              rcases ih (a + 1) _ h with hc | hfs
              · exact Or.inl hc
              · simp at hfs
          · rw [if_neg hr0] at h; simp at h

theorem runLoop_allFail (cfg : Cfg) (net : Nat → AttemptNet) (sI : Nat → Bool)
    (hnet : ∀ i, net i = .getRaises) (hsI : ∀ i, sI i = false) :
    ∀ (r a : Nat) (st : St), st.fs = none → 1 ≤ r →
      (runLoop cfg net sI r a st).2 = .maxRetriesFailed ∧
      (runLoop cfg net sI r a st).1.networkAttempts = st.networkAttempts + r ∧
      (runLoop cfg net sI r a st).1.sleeps = st.sleeps ++ List.replicate (r - 1) 5 ∧
      (runLoop cfg net sI r a st).1.fs = none := by
  intro r
  induction r with
  | zero => intro a st hfs h1; omega
  | succ n ih =>
    intro a st hfs h1
    rw [runLoop]
    unfold runBody
    rw [if_neg (by simp [hfs])]
    simp only [hnet a]
    by_cases hr0 : 0 < n
    · rw [if_pos hr0, hsI a]
      simp only [Bool.false_eq_true, if_false]
      obtain ⟨e1, e2, e3, e4⟩ := ih (a + 1)
        { st with networkAttempts := st.networkAttempts + 1, failedAttempt := true,
                  log := st.log ++ [Msg.attemptErrorLine (a + 1)] ++ [Msg.retryingLine],
                  sleeps := st.sleeps ++ [5] } (by simpa using hfs) hr0
      refine ⟨?_, ?_, ?_, ?_⟩
      · exact e1
      · rw [e2]; simp; omega
      · rw [e3]
        obtain ⟨m, rfl⟩ : ∃ m, n = m + 1 := ⟨n - 1, by omega⟩
        simp [List.replicate_succ, List.append_assoc]
      · exact e4
    · rw [if_neg hr0]
      have hn0 : n = 0 := by omega
      subst hn0
      exact ⟨rfl, by simp, by simp, by simpa using hfs⟩

/-- Claim C1: the claim says every per-chunk division (speed, percentage, ETA)
is zero-guarded with `0` substituted, so no division error can reach a
rendered progress event.  The code guards only the ETA: evaluating the
embedded `download_http_file` on a response whose `content-length` header is
absent (`total_size = 0`, first conjunct) or on a chunk observed at elapsed
time `0` (second conjunct) ends with an uncaught `ZeroDivisionError` from
lines 60 resp. 59 of the source. -/
theorem c1_unguarded_division_raises :
    (download_http_file ⟨"http://h/f", "/d", 8192, 5, 1, "y"⟩
        (fun _ => .conn ⟨0, "text/plain", [.chunk [7] 1]⟩) (fun _ => false) none).2 =
      .error .zeroDivision ∧
    (download_http_file ⟨"http://h/f", "/d", 8192, 5, 1, "y"⟩
        (fun _ => .conn ⟨10, "text/plain", [.chunk [7] 0]⟩) (fun _ => false) none).2 =
      .error .zeroDivision :=
  ⟨by decide, by decide⟩

/-- Claim C2, counterexample: a single attempt that streams the bytes
`[1, 2]` and then fails exhausts the one configured retry; the engine
returns the max-retries failure yet leaves the partially written file on
disk — contradicting the claim that on exhausted retries the file is
deleted. -/
theorem c2_counterexample :
    (download_http_file ⟨"http://h/f", "/d", 8192, 5, 1, "y"⟩
        (fun _ => .conn ⟨10, "t", [.chunk [1, 2] 1, .exc]⟩) (fun _ => false) none).2 =
      .maxRetriesFailed ∧
    (download_http_file ⟨"http://h/f", "/d", 8192, 5, 1, "y"⟩
        (fun _ => .conn ⟨10, "t", [.chunk [1, 2] 1, .exc]⟩) (fun _ => false) none).1.fs ≠
      none :=
  ⟨by decide, by decide⟩

/-- Claim C2 as amended: the max-retries path performs no deletion — if a
run returns `maxRetriesFailed` with the destination file absent, the file
was already absent when the call started (it was never created); a partially
written file from a failed attempt remains on disk. -/
theorem c2_amended_no_delete_on_failure (cfg : Cfg) (net : Nat → AttemptNet)
    (sI : Nat → Bool) (fs0 : Option (List Nat))
    (hres : (download_http_file cfg net sI fs0).2 = .maxRetriesFailed)
    (hfs : (download_http_file cfg net sI fs0).1.fs = none) :
    fs0 = none := by
  unfold download_http_file at hres hfs
  rcases runLoop_fs_none cfg net sI cfg.retries.toNat 0 _ hfs with hc | h0
  · rw [hres] at hc; simp at hc
  · exact h0

theorem c2_amended_witness : ((none : Option (List Nat)) = none) :=
  c2_amended_no_delete_on_failure ⟨"http://h/f", "/d", 8192, 5, 1, "y"⟩
    (fun _ => .getRaises) (fun _ => false) none (by decide) (by decide)

/-- Claim C3, counterexample: for a URL whose last path segment is empty the
engine does not fail fast with any `InvalidUrl` error before file activity —
it derives the degenerate file name `os.path.join(dir, "")` (the download
directory path plus a trailing separator), then proceeds to make an HTTP
request and runs the full retry loop. -/
theorem c3_counterexample :
    fileNameOf "/tmp" "http://h/d/" = "/tmp/" ∧
    (download_http_file ⟨"http://h/d/", "/tmp", 8192, 5, 1, "y"⟩
        (fun _ => .getRaises) (fun _ => false) (some [])).1.networkAttempts = 1 ∧
    (download_http_file ⟨"http://h/d/", "/tmp", 8192, 5, 1, "y"⟩
        (fun _ => .getRaises) (fun _ => false) (some [])).2 = .maxRetriesFailed :=
  ⟨by decide, by decide, by decide⟩

/-- Claim C3 as amended: `download_http_file` performs no empty-file-name
validation and has no `InvalidUrl` error at all.  For any URL whose final
`/`-separated segment is empty, the derived file name is the download
directory with a trailing separator appended, and (when the overwrite answer
is `y` and at least one retry is configured) the engine goes on to start at
least one HTTP request instead of failing fast. -/
theorem c3_amended_no_empty_name_validation (cfg : Cfg) (net : Nat → AttemptNet)
    (sI : Nat → Bool) (fs0 : Option (List Nat))
    (hurl : (splitChar '/' cfg.url.data).getLastD [] = [])
    (hdir : cfg.downloadDir.data.getLastD ' ' ≠ '/')
    (hans : pyLower cfg.userAnswer = "y")
    (hr : 1 ≤ cfg.retries) :
    fileNameOf cfg.downloadDir cfg.url = cfg.downloadDir ++ "/" ∧
    1 ≤ (download_http_file cfg net sI fs0).1.networkAttempts := by
  constructor
  · unfold fileNameOf ospathJoin
    rw [hurl, if_neg hdir]
    show cfg.downloadDir ++ "/" ++ "" = cfg.downloadDir ++ "/"
    exact String.append_empty _
  · obtain ⟨n, hn⟩ : ∃ n, cfg.retries.toNat = n + 1 := ⟨cfg.retries.toNat - 1, by omega⟩
    unfold download_http_file
    rw [hn, runLoop]
    unfold runBody
    rw [if_neg (by simp [hans])]
    cases hnet : net 0 with
    | getInterrupt => simp [hnet]
    | getRaises =>
      simp only [hnet]
      split
      · split
        · simp
        · exact le_trans (by simp) (runLoop_na_mono cfg net sI n 1 _)
      · simp
    | badStatus =>
      simp only [hnet]
      split
      · split
        · simp
        · exact le_trans (by simp) (runLoop_na_mono cfg net sI n 1 _)
      · simp
    | conn resp =>
      simp only [hnet]
      cases ho : (streamLoop resp.contentLength resp.events [] 0).outcome with
      | completed => simp [ho]
      | zeroDiv => simp [ho]
      | interruptStream => simp [ho]
      | excStream =>
        simp only [ho]
        split
        · split
          · simp
          · exact le_trans (by simp) (runLoop_na_mono cfg net sI n 1 _)
        · simp

theorem c3_amended_witness :
    fileNameOf "/tmp" "http://h/d/" = "/tmp" ++ "/" ∧
    1 ≤ (download_http_file ⟨"http://h/d/", "/tmp", 8192, 5, 1, "y"⟩
        (fun _ => .getRaises) (fun _ => false) none).1.networkAttempts :=
  c3_amended_no_empty_name_validation ⟨"http://h/d/", "/tmp", 8192, 5, 1, "y"⟩
    (fun _ => .getRaises) (fun _ => false) none (by decide) (by decide) (by decide) (by decide)

/-- Claim C4, counterexample: a cancellation signal arriving during the
5-second inter-attempt backoff sleep is *not* treated like the streaming
cancellation: `time.sleep(5)` runs inside the `except RequestException`
handler, so the `KeyboardInterrupt` escapes `download_http_file` — the run
neither reports the canceled outcome nor deletes the partially written
file (which still holds the first attempt's byte). -/
theorem c4_counterexample :
    (download_http_file ⟨"http://h/f", "/d", 8192, 5, 2, "y"⟩
        (fun _ => .conn ⟨10, "t", [.chunk [1] 1, .exc]⟩) (fun _ => true) none).2 =
      .error .keyboardInterrupt ∧
    (download_http_file ⟨"http://h/f", "/d", 8192, 5, 2, "y"⟩
        (fun _ => .conn ⟨10, "t", [.chunk [1] 1, .exc]⟩) (fun _ => true) none).1.fs =
      some [1] :=
  ⟨by decide, by decide⟩

/-- Claim C4 as amended: cancellation during connection or streaming is
handled — whenever a run reports the handled-cancellation outcome with the
deleted flag, the destination file is gone; but a cancellation during the
backoff sleep escapes as an uncaught `KeyboardInterrupt` and performs no
deletion — a file present when the loop started is still present. -/
theorem c4_amended_cancellation (cfg : Cfg) (net : Nat → AttemptNet) (sI : Nat → Bool)
    (r a : Nat) (st : St) :
    ((runLoop cfg net sI r a st).2 = .canceledInterrupt true →
      (runLoop cfg net sI r a st).1.fs = none) ∧
    (st.fs.isSome = true →
      (runLoop cfg net sI r a st).2 = .error .keyboardInterrupt →
      (runLoop cfg net sI r a st).1.fs.isSome = true) :=
  ⟨runLoop_cancelTrue_fs cfg net sI r a st, runLoop_kbd_fs cfg net sI r a st⟩

theorem c4_amended_witness :
    (runLoop ⟨"http://h/f", "/d", 8192, 5, 1, "y"⟩
        (fun _ => .conn ⟨5, "t", [.chunk [1] 1, .interrupt]⟩) (fun _ => false) 1 0
        ⟨some [9], false, false, false, 0, [], []⟩).1.fs = none ∧
    (runLoop ⟨"http://h/f", "/d", 8192, 5, 2, "y"⟩
        (fun _ => .conn ⟨5, "t", [.chunk [1] 1, .exc]⟩) (fun _ => true) 2 0
        ⟨some [9], false, false, false, 0, [], []⟩).1.fs.isSome = true :=
  ⟨(c4_amended_cancellation ⟨"http://h/f", "/d", 8192, 5, 1, "y"⟩
      (fun _ => .conn ⟨5, "t", [.chunk [1] 1, .interrupt]⟩) (fun _ => false) 1 0
      ⟨some [9], false, false, false, 0, [], []⟩).1 (by decide),
   (c4_amended_cancellation ⟨"http://h/f", "/d", 8192, 5, 2, "y"⟩
      (fun _ => .conn ⟨5, "t", [.chunk [1] 1, .exc]⟩) (fun _ => true) 2 0
      ⟨some [9], false, false, false, 0, [], []⟩).2 (by decide) (by decide)⟩

/-- Claim C5: when the destination file already exists and the overwrite
prompt is answered with anything whose lowercase form is not `y`, the call
returns the user-cancel outcome at once, the existing file's bytes are
untouched, and no HTTP request is ever started. -/
theorem c5_decline_overwrite_cancels (cfg : Cfg) (net : Nat → AttemptNet)
    (sI : Nat → Bool) (content : List Nat) (hr : 1 ≤ cfg.retries)
    (hans : pyLower cfg.userAnswer ≠ "y") :
    (download_http_file cfg net sI (some content)).2 = .canceledByUser ∧
    (download_http_file cfg net sI (some content)).1.fs = some content ∧
    (download_http_file cfg net sI (some content)).1.networkAttempts = 0 := by
  obtain ⟨n, hn⟩ : ∃ n, cfg.retries.toNat = n + 1 := ⟨cfg.retries.toNat - 1, by omega⟩
  unfold download_http_file
  rw [hn, runLoop]
  unfold runBody
  rw [if_pos ⟨rfl, rfl, hans⟩]
  exact ⟨rfl, rfl, rfl⟩

theorem c5_witness :
    (download_http_file ⟨"http://h/a", "/d", 8192, 5, 1, "n"⟩ (fun _ => .getRaises)
        (fun _ => false) (some [3])).2 = .canceledByUser ∧
    (download_http_file ⟨"http://h/a", "/d", 8192, 5, 1, "n"⟩ (fun _ => .getRaises)
        (fun _ => false) (some [3])).1.fs = some [3] ∧
    (download_http_file ⟨"http://h/a", "/d", 8192, 5, 1, "n"⟩ (fun _ => .getRaises)
        (fun _ => false) (some [3])).1.networkAttempts = 0 :=
  c5_decline_overwrite_cancels ⟨"http://h/a", "/d", 8192, 5, 1, "n"⟩ (fun _ => .getRaises)
    (fun _ => false) [3] (by decide) (by decide)

/-- Claim C6: against a host where every attempt's `requests.get` raises a
transport error (and no cancellation arrives), a fresh download performs
exactly `retries` HTTP attempts, sleeps the fixed 5-second backoff between
consecutive attempts — `retries - 1` sleeps, none after the last attempt —
and returns the max-retries failure rather than reporting success. -/
theorem c6_unreachable_host_retries (cfg : Cfg) (net : Nat → AttemptNet)
    (sI : Nat → Bool) (hnet : ∀ i, net i = .getRaises) (hsI : ∀ i, sI i = false)
    (hr : 1 ≤ cfg.retries) :
    (download_http_file cfg net sI none).2 = .maxRetriesFailed ∧
    (download_http_file cfg net sI none).1.networkAttempts = cfg.retries.toNat ∧
    (download_http_file cfg net sI none).1.sleeps =
      List.replicate (cfg.retries.toNat - 1) 5 := by
  have h1 : 1 ≤ cfg.retries.toNat := by omega
  unfold download_http_file
  obtain ⟨e1, e2, e3, _⟩ := runLoop_allFail cfg net sI hnet hsI cfg.retries.toNat 0
    { fs := none, responseTruthy := false, failedAttempt := false, startTimeSet := false,
      networkAttempts := 0, sleeps := [], log := [] } rfl h1
  exact ⟨e1, by simpa using e2, by simpa using e3⟩

theorem c6_witness :
    (download_http_file ⟨"http://h/f", "/d", 8192, 5, 3, "y"⟩ (fun _ => .getRaises)
        (fun _ => false) none).2 = .maxRetriesFailed ∧
    (download_http_file ⟨"http://h/f", "/d", 8192, 5, 3, "y"⟩ (fun _ => .getRaises)
        (fun _ => false) none).1.networkAttempts = 3 ∧
    (download_http_file ⟨"http://h/f", "/d", 8192, 5, 3, "y"⟩ (fun _ => .getRaises)
        (fun _ => false) none).1.sleeps = List.replicate 2 5 :=
  c6_unreachable_host_retries ⟨"http://h/f", "/d", 8192, 5, 3, "y"⟩ (fun _ => .getRaises)
    (fun _ => false) (fun _ => rfl) (fun _ => rfl) (by decide)

/-- Claim C7: within one attempt the cumulative `downloaded_size` values in
the emitted progress lines are monotonically non-decreasing (and never drop
below the attempt's starting counter), and since every attempt enters the
streaming loop with counter `0` and a file freshly opened in truncate mode
(`open(file_name, "wb")` — the `[]`/`0` arguments in the engine's call of
`streamLoop`), the file content produced by an attempt is exactly a
concatenation of that attempt's own nonempty chunks: no byte written by an
earlier failed attempt survives into the file used by a later attempt. -/
theorem c7_monotone_counter_truncate_reopen (total : Nat) (events : List StreamEvent)
    (c : List Nat) (d : Nat) :
    List.Chain' (· ≤ ·)
      ((streamLoop total events c d).progress.map fun p => p.bytesDownloaded) ∧
    (∀ b ∈ ((streamLoop total events c d).progress.map fun p => p.bytesDownloaded),
      d ≤ b) ∧
    ∃ m, (streamLoop total events [] 0).content =
      (chunkDatas (List.take m events)).flatten := by
  refine ⟨(streamLoop_bytes total events c d).2, (streamLoop_bytes total events c d).1, ?_⟩
  obtain ⟨m, hm⟩ := streamLoop_content total events [] 0
  exact ⟨m, by simpa using hm⟩

/-- Claim C8: `format_bytes` repeatedly divides by 1024, picks the first
unit in B, KB, MB, GB, TB for which the value has dropped below 1024, and
renders it with two decimal places — in particular on the three quoted
inputs. -/
theorem c8_format_bytes_values :
    format_bytes 0 = some "0.00 B" ∧ format_bytes 1536 = some "1.50 KB" ∧
    format_bytes 1073741824 = some "1.00 GB" :=
  ⟨by decide, by decide, by decide⟩

/-- Claim C9: for any size of at least `1024^5` bytes the unit loop of
`format_bytes` exhausts its five units without returning, and the function
yields Python's implicit `None` instead of a rendered string. -/
theorem c9_format_bytes_overflow (q : ℚ) (h : (1024 : ℚ) ^ 5 ≤ q) :
    format_bytes q = none := by
  have h0 : (0 : ℚ) < 1024 := by norm_num
  have step : ∀ (s : ℚ) (u : String) (rest : List String), (1024 : ℚ) ≤ s →
      format_bytes_go s (u :: rest) = format_bytes_go (s / 1024) rest := by
    intro s u rest hs
    rw [format_bytes_go, if_neg (not_lt.mpr hs)]
  have div_step : ∀ (s : ℚ) (k : ℕ), (1024 : ℚ) ^ (k + 1) ≤ s →
      (1024 : ℚ) ^ k ≤ s / 1024 := by
    intro s k hs
    rw [le_div_iff₀ h0]
    calc (1024 : ℚ) ^ k * 1024 = 1024 ^ (k + 1) := by ring
      _ ≤ s := hs
  have b4 : (1024 : ℚ) ^ 4 ≤ q / 1024 := div_step _ _ h
  have b3 : (1024 : ℚ) ^ 3 ≤ q / 1024 / 1024 := div_step _ _ b4
  have b2 : (1024 : ℚ) ^ 2 ≤ q / 1024 / 1024 / 1024 := div_step _ _ b3
  have b1 : (1024 : ℚ) ^ 1 ≤ q / 1024 / 1024 / 1024 / 1024 := div_step _ _ b2
  unfold format_bytes
  rw [step _ _ _ (le_trans (by norm_num) h),
      step _ _ _ (le_trans (by norm_num) b4),
      step _ _ _ (le_trans (by norm_num) b3),
      step _ _ _ (le_trans (by norm_num) b2),
      step _ _ _ (le_trans (by norm_num) b1)]
  rfl

theorem c9_witness : format_bytes ((1024 : ℚ) ^ 5) = none :=
  c9_format_bytes_overflow _ (le_refl _)

/-- Claim C10: when `retries ≤ 0`, `range(retries)` is empty, so the attempt
loop body never runs: no HTTP request is made and the file system is
untouched, yet control falls through to line 83, prints the success message,
and then line 84 reads the never-assigned `start_time` — the call raises
`UnboundLocalError` after claiming success, neither downloading anything nor
reporting a failure outcome. -/
theorem c10_nonpositive_retries (cfg : Cfg) (net : Nat → AttemptNet) (sI : Nat → Bool)
    (fs0 : Option (List Nat)) (h : cfg.retries ≤ 0) :
    (download_http_file cfg net sI fs0).1.networkAttempts = 0 ∧
    (download_http_file cfg net sI fs0).1.fs = fs0 ∧
    (download_http_file cfg net sI fs0).1.log = [Msg.successLine] ∧
    (download_http_file cfg net sI fs0).2 = .error .unboundLocalStartTime := by
  have h0 : cfg.retries.toNat = 0 := by omega
  unfold download_http_file
  rw [h0, runLoop]
  unfold epilogue
  rw [if_neg (by simp)]
  exact ⟨rfl, rfl, rfl, rfl⟩

theorem c10_witness :
    (download_http_file ⟨"http://h/f", "/d", 8192, 5, 0, "y"⟩ (fun _ => .getRaises)
        (fun _ => false) none).1.networkAttempts = 0 ∧
    (download_http_file ⟨"http://h/f", "/d", 8192, 5, 0, "y"⟩ (fun _ => .getRaises)
        (fun _ => false) none).1.fs = none ∧
    (download_http_file ⟨"http://h/f", "/d", 8192, 5, 0, "y"⟩ (fun _ => .getRaises)
        (fun _ => false) none).1.log = [Msg.successLine] ∧
    (download_http_file ⟨"http://h/f", "/d", 8192, 5, 0, "y"⟩ (fun _ => .getRaises)
        (fun _ => false) none).2 = .error .unboundLocalStartTime :=
  c10_nonpositive_retries ⟨"http://h/f", "/d", 8192, 5, 0, "y"⟩ (fun _ => .getRaises)
    (fun _ => false) none (by decide)

end Ictfd
